import Mathlib

/-!
Shallow embedding of the JSON parser in `src/main.rs` (crate `json_parser`).

Characters are Lean `Char`, UTF-16 code units are `Nat` (< 2^16 by
construction), and the Rust `Result<_, ParseError>` together with the
reachable panics (`todo!()` bodies and `.unwrap()` on `Err`) is embedded as
`Except Failure _`, where `Failure.panicked` marks a Rust panic and
`Failure.err` a returned `ParseError`.  `std::str::Chars` is embedded as a
`List Char`; iterator state threads explicitly through every operation.
-/

namespace JsonParser

/-- Embeds `is_json_whitespace` (src/main.rs lines 5-7). -/
def isJsonWhitespace (c : Char) : Bool :=
  c = ' ' || c = '\n' || c = '\r' || c = '\t'

/-- Embeds `WhitespaceSkippingIndexTrackingIter` over a `std::str::Chars`
source: `prev` is `previously_outputted_index`, `input` the remaining
characters of the inner iterator. -/
structure Cursor where
  prev : Option Nat
  input : List Char
deriving Repr, DecidableEq

/-- Embeds `inc_index` (lines 47-52) acting on `previously_outputted_index`:
`None` becomes `Some 0`, `Some i` becomes `Some (i+1)`. -/
def incIdxOpt : Option Nat → Option Nat
  | none => some 0
  | some i => some (i + 1)

/-- Embeds `next_any` (lines 54-60): take the next character from the inner
iterator and, if one was produced, increment the tracked index. -/
def Cursor.nextAny (c : Cursor) : Option Char × Cursor :=
  match c.input with
  | [] => (none, c)
  | ch :: rest => (some ch, ⟨incIdxOpt c.prev, rest⟩)

/-- Embeds the loop of `next_non_whitespace` (lines 62-69): repeatedly
`next_any`, discarding JSON whitespace, until a non-whitespace character or
end of input. -/
def nextNonWsAux : Option Nat → List Char → Option Char × Cursor
  | p, [] => (none, ⟨p, []⟩)
  | p, ch :: rest =>
    if isJsonWhitespace ch then nextNonWsAux (incIdxOpt p) rest
    else (some ch, ⟨incIdxOpt p, rest⟩)

def Cursor.nextNonWhitespace (c : Cursor) : Option Char × Cursor :=
  nextNonWsAux c.prev c.input

/-- Embeds `<std::str::Chars as CharIterator>::next_if` (lines 25-27).  The
Rust impl builds a temporary `Peekable` over `&mut self`; `Peekable::next_if`
pulls the next character out of the underlying iterator and, when the
predicate rejects it, buffers it only inside that temporary `Peekable`, which
is immediately dropped.  Hence the probed character is removed from the
source whether or not the predicate accepts it, and only an accepted
character is returned.  The tracked index is untouched (this is the inner
iterator, not `next_any`). -/
def Cursor.nextIf (f : Char → Bool) (c : Cursor) : Option Char × Cursor :=
  match c.input with
  | [] => (none, c)
  | ch :: rest =>
    if f ch then (some ch, ⟨c.prev, rest⟩)
    else (none, ⟨c.prev, rest⟩)

/-- Embeds the loop of `next_non_whitespace_if_eq` (lines 73-83): repeatedly
`inner.next_if(|c| is_json_whitespace(c) || c == expected)`; whitespace
continues the loop, the expected character is returned, and a `None` from
`next_if` (end of input, or — per `Cursor.nextIf` — a rejected and therefore
dropped character) aborts with no match. -/
def nextNonWsIfEqAux (expected : Char) : Option Nat → List Char → Option Char × Cursor
  | p, [] => (none, ⟨p, []⟩)
  | p, ch :: rest =>
    if isJsonWhitespace ch then nextNonWsIfEqAux expected p rest
    else if ch = expected then (some ch, ⟨p, rest⟩)
    else (none, ⟨p, rest⟩)

def Cursor.nextNonWhitespaceIfEq (expected : Char) (c : Cursor) : Option Char × Cursor :=
  nextNonWsIfEqAux expected c.prev c.input

/-- Embeds `enum ParseError` (lines 113-128). -/
inductive ParseError where
  | UnexpectedCharacter (character : Char) (index : Nat) (expectedCharacters : List Char)
  | UnexpectedEndOfString
  | ControlCharacter (controlCharacter : Char) (index : Nat)
  | UnexpectedNonHexCharacter (character : Char) (index : Nat)
deriving Repr, DecidableEq

/-- Outcome of running a parsing operation: a returned `ParseError`, a Rust
panic (`todo!()` or `.unwrap()` on `None`/`Err`), or exhaustion of the
recursion fuel of the embedding (never reached at the inputs proved about). -/
inductive Failure where
  | err (e : ParseError)
  | panicked
  | outOfFuel
deriving Repr, DecidableEq

/-- Embeds `ParseError::UnexpectedCharacter { ..., index: self.previously_outputted_index.unwrap(), ... }`:
the `.unwrap()` panics when the index is still `None`. -/
def unexpectedCharAt (ch : Char) (prev : Option Nat) (expected : List Char) : Failure :=
  match prev with
  | some i => .err (.UnexpectedCharacter ch i expected)
  | none => .panicked

/-- Embeds `ParseError::UnexpectedNonHexCharacter` built with `previously_outputted_index.unwrap()`. -/
def nonHexAt (ch : Char) (prev : Option Nat) : Failure :=
  match prev with
  | some i => .err (.UnexpectedNonHexCharacter ch i)
  | none => .panicked

/-- Embeds `ParseError::ControlCharacter` built with `previously_outputted_index.unwrap()`. -/
def controlCharAt (ch : Char) (prev : Option Nat) : Failure :=
  match prev with
  | some i => .err (.ControlCharacter ch i)
  | none => .panicked

/-- Embeds `expect_specific_char` (lines 85-96); the cursor state after the
call is returned even on error, since the Rust method mutates `self`. -/
def Cursor.expectSpecificChar (expected : Char) (c : Cursor) : Except Failure Unit × Cursor :=
  match Cursor.nextAny c with
  | (none, c1) => (.error (.err .UnexpectedEndOfString), c1)
  | (some ch, c1) =>
    if ch = expected then (.ok (), c1)
    else (.error (unexpectedCharAt ch c1.prev [expected]), c1)

/-- Embeds `expect_specific_char_ignore_whitespace` (lines 97-110). -/
def Cursor.expectSpecificCharIgnoreWhitespace (expected : Char) (c : Cursor) :
    Except Failure Unit × Cursor :=
  match Cursor.nextNonWhitespace c with
  | (none, c1) => (.error (.err .UnexpectedEndOfString), c1)
  | (some ch, c1) =>
    if ch = expected then (.ok (), c1)
    else (.error (unexpectedCharAt ch c1.prev [expected]), c1)

/-- Embeds `hex_digit_to_byte` (lines 324-344). -/
def hexDigitToByte (hexDigit : Char) : Option Nat :=
  match hexDigit with
  | '0' => some 0x0
  | '1' => some 0x1
  | '2' => some 0x2
  | '3' => some 0x3
  | '4' => some 0x4
  | '5' => some 0x5
  | '6' => some 0x6
  | '7' => some 0x7
  | '8' => some 0x8
  | '9' => some 0x9
  | 'a' | 'A' => some 0xA
  | 'b' | 'B' => some 0xB
  | 'c' | 'C' => some 0xC
  | 'd' | 'D' => some 0xD
  | 'e' | 'E' => some 0xE
  | 'f' | 'F' => some 0xF
  | _ => none

/-- Embeds the nested fn `parse4hex` (lines 256-290).  The source combines
nibbles as `(b00 << 4) | b01` and bytes as `(b0 as u16) << 8 | b1`; since
every nibble returned by `hex_digit_to_byte` is below 16, the shifted
operands share no bits and bitwise or equals addition, written here
arithmetically. -/
def parse4hex (c : Cursor) : Except Failure (Nat × Cursor) :=
  match Cursor.nextAny c with
  | (none, _) => .error (.err .UnexpectedEndOfString)
  | (some ch0, c1) =>
    match hexDigitToByte ch0 with
    | none => .error (nonHexAt ch0 c1.prev)
    | some b00 =>
      match Cursor.nextAny c1 with
      | (none, _) => .error (.err .UnexpectedEndOfString)
      | (some ch1, c2) =>
        match hexDigitToByte ch1 with
        | none => .error (nonHexAt ch1 c2.prev)
        | some b01 =>
          match Cursor.nextAny c2 with
          | (none, _) => .error (.err .UnexpectedEndOfString)
          | (some ch2, c3) =>
            match hexDigitToByte ch2 with
            | none => .error (nonHexAt ch2 c3.prev)
            | some b10 =>
              match Cursor.nextAny c3 with
              | (none, _) => .error (.err .UnexpectedEndOfString)
              | (some ch3, c4) =>
                match hexDigitToByte ch3 with
                | none => .error (nonHexAt ch3 c4.prev)
                | some b11 =>
                  .ok ((b00 * 16 + b01) * 256 + (b10 * 16 + b11), c4)

/-- Embeds the sequence of items produced by Rust's `char::decode_utf16` on a
list of UTF-16 code units: a non-surrogate unit decodes to itself; a high
surrogate followed by a low surrogate combines into one scalar above
U+FFFF; a high surrogate followed by anything else yields an error for the
high surrogate while the follower is retained and re-examined; an unpaired
low surrogate yields an error.  `Except Nat Char` mirrors
`Result<char, DecodeUtf16Error>` with the error carrying the offending
unit. -/
def decodeUtf16 : List Nat → List (Except Nat Char)
  | [] => []
  | [w] =>
    if w < 0xD800 || 0xDFFF < w then [.ok (Char.ofNat w)]
    else [.error w]
  | w :: w2 :: rest2 =>
    if w < 0xD800 || 0xDFFF < w then .ok (Char.ofNat w) :: decodeUtf16 (w2 :: rest2)
    else if w ≤ 0xDBFF then
      if 0xDC00 ≤ w2 && w2 ≤ 0xDFFF then
        .ok (Char.ofNat (0x10000 + (w - 0xD800) * 0x400 + (w2 - 0xDC00))) :: decodeUtf16 rest2
      else .error w :: decodeUtf16 (w2 :: rest2)
    else .error w :: decodeUtf16 (w2 :: rest2)

/-- Embeds `.next().unwrap().unwrap()` applied to a fresh
`char::decode_utf16` iterator (lines 296 and 298-303): the outer `unwrap`
panics if the iterator is empty, the inner one if the first item is an
`Err`. -/
def unwrapUnwrap (l : List (Except Nat Char)) : Except Failure Char :=
  match l.head? with
  | none => .error .panicked
  | some (.error _) => .error .panicked
  | some (.ok ch) => .ok ch

/-- Rust's `char::is_control` used at line 312: Unicode general category Cc,
exactly the code points U+0000..=U+001F and U+007F..=U+009F. -/
def isControlRust (ch : Char) : Bool :=
  ch.toNat < 0x20 || (0x7F ≤ ch.toNat && ch.toNat ≤ 0x9F)

/-- Embeds the character loop of `JsonString::parse` (lines 235-320) with
`acc` for the accumulated `String`.  `fuel` only bounds the recursion of the
embedding; every iteration consumes at least one character, so a fuel of one
more than the remaining input length never runs out.  The `b` and `f` escape
branches are `todo!()` in the source and hence panic; there is no branch for
an escaped `/`, which therefore reaches the final `UnexpectedCharacter`
branch. -/
def parseStringLoop : Nat → List Char → Cursor → Except Failure (List Char × Cursor)
  | 0, _, _ => .error .outOfFuel
  | fuel + 1, acc, c0 =>
    match Cursor.nextAny c0 with
    | (none, _) => .error (.err .UnexpectedEndOfString)
    | (some ch, c) =>
      if ch = '"' then .ok (acc, c)
      else if ch = '\\' then
        match Cursor.nextAny c with
        | (none, _) => .error (.err .UnexpectedEndOfString)
        | (some esc, c) =>
          if esc = '"' then parseStringLoop fuel (acc ++ ['"']) c
          else if esc = '\\' then parseStringLoop fuel (acc ++ ['\\']) c
          else if esc = 'b' then .error .panicked
          else if esc = 'f' then .error .panicked
          else if esc = 'n' then parseStringLoop fuel (acc ++ ['\n']) c
          else if esc = 'r' then parseStringLoop fuel (acc ++ ['\r']) c
          else if esc = 't' then parseStringLoop fuel (acc ++ ['\t']) c
          else if esc = 'u' then
            match parse4hex c with
            | .error e => .error e
            | .ok (w0, c) =>
              if 0xD800 ≤ w0 && w0 ≤ 0xDFFF then
                match Cursor.expectSpecificChar '\\' c with
                | (.error e, _) => .error e
                | (.ok _, c) =>
                  match Cursor.expectSpecificChar 'u' c with
                  | (.error e, _) => .error e
                  | (.ok _, c) =>
                    match parse4hex c with
                    | .error e => .error e
                    | .ok (w1, c) =>
                      match unwrapUnwrap (decodeUtf16 [w0, w1]) with
                      | .error e => .error e
                      | .ok sc => parseStringLoop fuel (acc ++ [sc]) c
              else
                match unwrapUnwrap (decodeUtf16 [w0]) with
                | .error e => .error e
                | .ok sc => parseStringLoop fuel (acc ++ [sc]) c
          else .error (unexpectedCharAt esc c.prev ['"', '\\', '/', 'b', 'f', 'n', 'r', 't', 'u'])
      else if isControlRust ch then .error (controlCharAt ch c.prev)
      else parseStringLoop fuel (acc ++ [ch]) c

/-- Embeds `JsonString::parse` (lines 232-321): expect the opening quote,
then run the character loop. -/
def parseJsonString (c : Cursor) : Except Failure (List Char × Cursor) :=
  match Cursor.expectSpecificChar '"' c with
  | (.error e, _) => .error e
  | (.ok _, c1) => parseStringLoop (c1.input.length + 1) [] c1

/-- Number of `advance`-consumptions a cursor index stands for: `none` is 0,
`some i` is `i + 1` (the tracked index is the 0-based index of the last
consumed character). -/
def idxNat : Option Nat → Nat
  | none => 0
  | some i => i + 1

/-- Embeds `JsonNumber::parse` (src/main.rs lines 194-198): the body is
`todo!()`, which panics on every input before consuming anything.  The
source's payload wraps an `f64`; since the body never returns, no payload
value exists and `Unit` stands in for it. -/
def parseJsonNumber (_c : Cursor) : Except Failure (Unit × Cursor) :=
  .error .panicked

/-- Embeds `enum JsonValue` (lines 134-141); an object is its list of
key-value entries (the `HashMap` observed as a key-to-value mapping).  The
`Number` variant's `f64` payload is outside the embedding; no number value
is ever constructed, since `JsonNumber::parse` is `todo!()`. -/
inductive JsonValue where
  | obj (entries : List (List Char × JsonValue))
  | arr (elems : List JsonValue)
  | str (s : List Char)
  | num
  | bool (b : Bool)
  | null

/-- Embeds `HashMap::insert` observed on the key-value mapping: the entry
for an already-present key is overwritten in place, a new key is
appended. -/
def insertEntry (m : List (List Char × JsonValue)) (k : List Char) (v : JsonValue) :
    List (List Char × JsonValue) :=
  match m with
  | [] => [(k, v)]
  | (k0, v0) :: rest => if k0 = k then (k, v) :: rest else (k0, v0) :: insertEntry rest k v

/-- Embeds `JsonValue::parse` (lines 143-147): the body is `todo!()`, which
panics on every input.  The fuel argument is kept so the call sites in the
array and object member loops mirror the source. -/
def parseJsonValueF : Nat → Cursor → Except Failure (JsonValue × Cursor) :=
  fun _ _ => .error .panicked

/-- Embeds the element loop of `JsonArray::parse` (lines 158-175). -/
def parseJsonArrayLoopF : Nat → List JsonValue → Cursor → Except Failure (List JsonValue × Cursor)
  | 0, _, _ => .error .outOfFuel
  | fuel + 1, acc, c0 =>
    match parseJsonValueF fuel c0 with
    | .error e => .error e
    | .ok (v, c) =>
      match Cursor.nextNonWhitespace c with
      | (none, _) => .error (.err .UnexpectedEndOfString)
      | (some ch, c1) =>
        if ch = ']' then .ok (acc ++ [v], c1)
        else if ch = ',' then parseJsonArrayLoopF fuel (acc ++ [v]) c1
        else .error (unexpectedCharAt ch c1.prev [']', ','])

/-- Embeds `JsonArray::parse` (lines 150-177): expect `[`, probe for an
immediately closing `]` with `next_non_whitespace_if_eq`, else enter the
element loop. -/
def parseJsonArrayF : Nat → Cursor → Except Failure (List JsonValue × Cursor)
  | 0, _ => .error .outOfFuel
  | fuel + 1, c0 =>
    match Cursor.expectSpecificChar '[' c0 with
    | (.error e, _) => .error e
    | (.ok _, c) =>
      match Cursor.nextNonWhitespaceIfEq ']' c with
      | (some _, c1) => .ok ([], c1)
      | (none, c1) => parseJsonArrayLoopF fuel [] c1

/-- Embeds the member loop of `JsonObject::parse` (lines 206-225): take the
next non-whitespace character; `}` terminates; a non-`,` on a non-first
iteration is an error; otherwise (the taken character is NOT put back) parse
a key string, expect `:` skipping whitespace, parse a value, and insert the
pair, overwriting any existing entry for the key. -/
def parseJsonObjectLoopF : Nat → List (List Char × JsonValue) → Bool → Cursor →
    Except Failure (List (List Char × JsonValue) × Cursor)
  | 0, _, _, _ => .error .outOfFuel
  | fuel + 1, acc, isFirst, c0 =>
    match Cursor.nextNonWhitespace c0 with
    | (none, _) => .error (.err .UnexpectedEndOfString)
    | (some ch, c) =>
      if ch = '}' then .ok (acc, c)
      else if ch ≠ ',' && !isFirst then .error (unexpectedCharAt ch c.prev [',', '}'])
      else
        match parseJsonString c with
        | .error e => .error e
        | .ok (key, c1) =>
          match Cursor.expectSpecificCharIgnoreWhitespace ':' c1 with
          | (.error e, _) => .error e
          | (.ok _, c2) =>
            match parseJsonValueF fuel c2 with
            | .error e => .error e
            | .ok (v, c3) => parseJsonObjectLoopF fuel (insertEntry acc key v) false c3

/-- Embeds `JsonObject::parse` (lines 201-227): expect `{` then enter the
member loop. -/
def parseJsonObjectF : Nat → Cursor → Except Failure (List (List Char × JsonValue) × Cursor)
  | 0, _ => .error .outOfFuel
  | fuel + 1, c0 =>
    match Cursor.expectSpecificChar '{' c0 with
    | (.error e, _) => .error e
    | (.ok _, c) => parseJsonObjectLoopF fuel [] true c

/-- Runs `JsonObject::parse` with enough fuel for the whole input. -/
def parseJsonObject (c : Cursor) : Except Failure (List (List Char × JsonValue) × Cursor) :=
  parseJsonObjectF (c.input.length + 1) c

/-- Runs `JsonArray::parse` with enough fuel for the whole input. -/
def parseJsonArray (c : Cursor) : Except Failure (List JsonValue × Cursor) :=
  parseJsonArrayF (c.input.length + 1) c

/-- Runs `JsonValue::parse` with enough fuel for the whole input. -/
def parseJsonValue (c : Cursor) : Except Failure (JsonValue × Cursor) :=
  parseJsonValueF (c.input.length + 1) c

/-- Starts a cursor over an input, `previously_outputted_index` still
`None`. -/
def Cursor.fresh (l : List Char) : Cursor := ⟨none, l⟩

/-- One cursor operation of the advance family, for stating the index
invariant over arbitrary operation sequences. -/
inductive Op where
  | opNextAny
  | opNextNonWs
  | opNextNonWsIfEq (expected : Char)
  | opExpect (expected : Char)
  | opExpectIgnoreWs (expected : Char)
deriving Repr, DecidableEq

/-- State effect of one cursor operation (results discarded). -/
def Op.apply : Op → Cursor → Cursor
  | .opNextAny, c => (Cursor.nextAny c).2
  | .opNextNonWs, c => (Cursor.nextNonWhitespace c).2
  | .opNextNonWsIfEq e, c => (Cursor.nextNonWhitespaceIfEq e c).2
  | .opExpect e, c => (Cursor.expectSpecificChar e c).2
  | .opExpectIgnoreWs e, c => (Cursor.expectSpecificCharIgnoreWhitespace e c).2

/-- Operations whose consumption goes through `next_any` and is therefore
index-tracked.  `next_non_whitespace_if_eq` consumes via `inner.next_if`
directly and bypasses the tracker. -/
def Op.counted : Op → Bool
  | .opNextNonWsIfEq _ => false
  | _ => true

/-- Characters an operation removed from the source, when the operation is
index-tracked (0 otherwise). -/
def countedDelta (op : Op) (c : Cursor) : Nat :=
  if op.counted then c.input.length - (op.apply c).input.length else 0

def runOps (c : Cursor) : List Op → Cursor
  | [] => c
  | op :: ops => runOps (op.apply c) ops

/-- Total number of characters consumed by the index-tracked operations of a
sequence. -/
def countedConsumed : Cursor → List Op → Nat
  | _, [] => 0
  | c, op :: ops => countedDelta op c + countedConsumed (op.apply c) ops

/-- Order on tracked indices: an initialized index may only grow and may
never return to `none`. -/
def optIdxLe : Option Nat → Option Nat → Prop
  | none, _ => True
  | some _, none => False
  | some k, some k2 => k ≤ k2

theorem incIdxOpt_idxNat (p : Option Nat) : idxNat (incIdxOpt p) = idxNat p + 1 := by
  cases p <;> rfl

theorem nextAny_idx (c : Cursor) :
    idxNat (Cursor.nextAny c).2.prev + (Cursor.nextAny c).2.input.length
      = idxNat c.prev + c.input.length ∧
    (Cursor.nextAny c).2.input.length ≤ c.input.length := by
  rcases c with ⟨p, l⟩
  cases l <;> simp [Cursor.nextAny, incIdxOpt_idxNat] <;> omega

theorem nextNonWsAux_idx (l : List Char) : ∀ p : Option Nat,
    idxNat (nextNonWsAux p l).2.prev + (nextNonWsAux p l).2.input.length
      = idxNat p + l.length ∧
    (nextNonWsAux p l).2.input.length ≤ l.length := by
  induction l with
  | nil => intro p; simp [nextNonWsAux]
  | cons ch rest ih =>
    intro p
    by_cases h : isJsonWhitespace ch
    · have h2 := ih (incIdxOpt p)
      simp only [nextNonWsAux, h, if_true, incIdxOpt_idxNat, List.length_cons] at h2 ⊢
      omega
    · simp [nextNonWsAux, h, incIdxOpt_idxNat] <;> omega

theorem nextNonWsIfEqAux_state (e : Char) (l : List Char) : ∀ p : Option Nat,
    (nextNonWsIfEqAux e p l).2.prev = p ∧
    (nextNonWsIfEqAux e p l).2.input.length ≤ l.length := by
  induction l with
  | nil => intro p; simp [nextNonWsIfEqAux]
  | cons ch rest ih =>
    intro p
    by_cases h : isJsonWhitespace ch
    · obtain ⟨ha, hb⟩ := ih p
      simp only [nextNonWsIfEqAux, h, if_true, List.length_cons]
      exact ⟨ha, by omega⟩
    · by_cases h2 : ch = e
      · subst h2
        simp [nextNonWsIfEqAux, h] <;> omega
      · simp [nextNonWsIfEqAux, h, h2] <;> omega

theorem expectSpecificChar_snd (e : Char) (c : Cursor) :
    (Cursor.expectSpecificChar e c).2 = (Cursor.nextAny c).2 := by
  unfold Cursor.expectSpecificChar
  rcases h : Cursor.nextAny c with ⟨o, c1⟩
  cases o
  · simp
  · simp only []
    split <;> rfl

theorem expectIgnoreWs_snd (e : Char) (c : Cursor) :
    (Cursor.expectSpecificCharIgnoreWhitespace e c).2 = (Cursor.nextNonWhitespace c).2 := by
  unfold Cursor.expectSpecificCharIgnoreWhitespace
  rcases h : Cursor.nextNonWhitespace c with ⟨o, c1⟩
  cases o
  · simp
  · simp only []
    split <;> rfl

theorem apply_idx (op : Op) (c : Cursor) :
    idxNat ((Op.apply op) c).prev = idxNat c.prev + countedDelta op c ∧
    ((Op.apply op) c).input.length ≤ c.input.length := by
  cases op with
  | opNextAny =>
    have h := nextAny_idx c
    simp only [countedDelta, Op.counted, Op.apply, if_true]
    omega
  | opNextNonWs =>
    have h := nextNonWsAux_idx c.input c.prev
    simp only [countedDelta, Op.counted, Op.apply, if_true, Cursor.nextNonWhitespace]
    omega
  | opNextNonWsIfEq e =>
    have h := nextNonWsIfEqAux_state e c.input c.prev
    simp only [countedDelta, Op.counted, Op.apply, if_false, Cursor.nextNonWhitespaceIfEq]
    constructor
    · rw [h.1]; simp
    · exact h.2
  | opExpect e =>
    have h := nextAny_idx c
    simp only [countedDelta, Op.counted, Op.apply, if_true, expectSpecificChar_snd]
    omega
  | opExpectIgnoreWs e =>
    have h := nextNonWsAux_idx c.input c.prev
    simp only [countedDelta, Op.counted, Op.apply, if_true, expectIgnoreWs_snd,
      Cursor.nextNonWhitespace]
    omega

theorem runOps_idx (ops : List Op) : ∀ c : Cursor,
    idxNat (runOps c ops).prev = idxNat c.prev + countedConsumed c ops := by
  induction ops with
  | nil => intro c; simp [runOps, countedConsumed]
  | cons op ops ih =>
    intro c
    have h := apply_idx op c
    simp only [runOps, countedConsumed, ih (Op.apply op c), h.1]
    omega

theorem optIdxLe_of_idxNat_le {p q : Option Nat} (h : idxNat p ≤ idxNat q) : optIdxLe p q := by
  cases p <;> cases q <;> simp [optIdxLe, idxNat] at h ⊢ <;> omega

/-- C4 (amended): under every advance-family operation the tracked index,
once initialized, is monotonically non-decreasing (it never returns to
`none` and never shrinks), and after any sequence of operations on a fresh
cursor the index — read as the count `idxNat` of tracked consumptions, i.e.
0 when uninitialized and one more than the 0-based index otherwise —
equals the number of characters consumed via the operations that go through
`next_any` (`next_any`, `next_non_whitespace`, `expect_specific_char`,
`expect_specific_char_ignore_whitespace`), whitespace included;
characters consumed via `next_non_whitespace_if_eq` bypass the tracker and
are not counted. -/
theorem c4_index_invariant :
    (∀ (op : Op) (c : Cursor), optIdxLe c.prev ((Op.apply op) c).prev) ∧
    (∀ (src : List Char) (ops : List Op),
      idxNat (runOps (Cursor.fresh src) ops).prev = countedConsumed (Cursor.fresh src) ops) := by
  constructor
  · intro op c
    exact optIdxLe_of_idxNat_le (by have h := (apply_idx op c).1; omega)
  · intro src ops
    have h := runOps_idx ops (Cursor.fresh src)
    simpa [Cursor.fresh, idxNat] using h

theorem hexDigitToByte_le (chx : Char) (v : Nat) (h : hexDigitToByte chx = some v) : v ≤ 15 := by
  unfold hexDigitToByte at h
  split at h <;> simp_all <;> omega

theorem hexTableNone (chx : Char)
    (h : chx ∉ "0123456789abcdefABCDEF".toList) :
    hexDigitToByte chx = none := by
  unfold hexDigitToByte
  split <;> simp_all

theorem parse4hex_lt (c : Cursor) (v : Nat) (c2 : Cursor)
    (h : parse4hex c = .ok (v, c2)) : v < 0x10000 := by
  rcases c with ⟨p, l⟩
  rcases l with _ | ⟨a1, l⟩
  · simp [parse4hex, Cursor.nextAny] at h
  rcases e1 : hexDigitToByte a1 with _ | v1
  · simp [parse4hex, Cursor.nextAny, e1] at h
  rcases l with _ | ⟨a2, l⟩
  · simp [parse4hex, Cursor.nextAny, e1] at h
  rcases e2 : hexDigitToByte a2 with _ | v2
  · simp [parse4hex, Cursor.nextAny, e1, e2] at h
  rcases l with _ | ⟨a3, l⟩
  · simp [parse4hex, Cursor.nextAny, e1, e2] at h
  rcases e3 : hexDigitToByte a3 with _ | v3
  · simp [parse4hex, Cursor.nextAny, e1, e2, e3] at h
  rcases l with _ | ⟨a4, l⟩
  · simp [parse4hex, Cursor.nextAny, e1, e2, e3] at h
  rcases e4 : hexDigitToByte a4 with _ | v4
  · simp [parse4hex, Cursor.nextAny, e1, e2, e3, e4] at h
  have b1 := hexDigitToByte_le a1 v1 e1
  have b2 := hexDigitToByte_le a2 v2 e2
  have b3 := hexDigitToByte_le a3 v3 e3
  have b4 := hexDigitToByte_le a4 v4 e4
  simp [parse4hex, Cursor.nextAny, e1, e2, e3, e4] at h
  omega

theorem parseStringLoop_plain_step (fuel : Nat) (acc : List Char) (p : Option Nat)
    (ch : Char) (rest : List Char) (h1 : ch ≠ '"') (h2 : ch ≠ '\\') :
    parseStringLoop (fuel + 1) acc ⟨p, ch :: rest⟩
      = if isControlRust ch then .error (controlCharAt ch (incIdxOpt p))
        else parseStringLoop fuel (acc ++ [ch]) ⟨incIdxOpt p, rest⟩ := by
  rw [parseStringLoop.eq_2]
  simp only [Cursor.nextAny]
  rw [if_neg h1, if_neg h2]

/-- C4 counterexample: after two `next_any` steps on a fresh cursor over
the two characters `a`, `b`, two characters have been consumed by
advance-family operations but the tracked index is `some 1`, not `some 2`
(it is the 0-based index of the last consumed character, not the count);
and `next_non_whitespace_if_eq` over a whitespace character followed by a
non-matching character consumes both while leaving the index `none`. -/
theorem c4_counterexample :
    (runOps (Cursor.fresh ['a', 'b']) [Op.opNextAny, Op.opNextAny]).prev = some 1 ∧
    (Cursor.fresh ['a', 'b']).input.length
      - (runOps (Cursor.fresh ['a', 'b']) [Op.opNextAny, Op.opNextAny]).input.length = 2 ∧
    (some 1 : Option Nat) ≠ some 2 ∧
    (runOps (Cursor.fresh [' ', 'x']) [Op.opNextNonWsIfEq ']']).prev = none ∧
    (Cursor.fresh [' ', 'x']).input.length
      - (runOps (Cursor.fresh [' ', 'x']) [Op.opNextNonWsIfEq ']']).input.length = 2 := by
  decide

/-- C1: evaluating the Object rule on `{"a":1,"a":2}` does not succeed with
an object mapping `a` to `2`: `next_non_whitespace` consumes the opening
quote of the first key and `JsonString::parse` then expects another `"`, so
the parse fails with `UnexpectedCharacter` at the first key's first content
character (index 2, the character `a`, expected set `"`), before any value
or duplicate key is reached. -/
theorem c1_duplicate_key_object_eval :
    parseJsonObject (Cursor.fresh ['{', '"', 'a', '"', ':', '1', ',', '"', 'a', '"', ':', '2', '}'])
      = .error (.err (.UnexpectedCharacter 'a' 2 ['"'])) := rfl

/-- C2: of the nine documented escapes, `"`, `\`, `n`, `r`, `t` substitute as
claimed and an undocumented escape character fails with `UnexpectedCharacter`
carrying the nine-character expected set; but `\/` also falls into that error
branch (the code has no `/` case even though its own expected set lists `/`),
and `\b` and `\f` hit `todo!()` and panic instead of substituting 0x08 and
0x0C. -/
theorem c2_escape_substitutions_eval :
    parseJsonString (Cursor.fresh ['"', '\\', '"', '"']) = .ok (['"'], ⟨some 3, []⟩) ∧
    parseJsonString (Cursor.fresh ['"', '\\', '\\', '"']) = .ok (['\\'], ⟨some 3, []⟩) ∧
    parseJsonString (Cursor.fresh ['"', '\\', 'n', '"']) = .ok (['\n'], ⟨some 3, []⟩) ∧
    parseJsonString (Cursor.fresh ['"', '\\', 'r', '"']) = .ok (['\r'], ⟨some 3, []⟩) ∧
    parseJsonString (Cursor.fresh ['"', '\\', 't', '"']) = .ok (['\t'], ⟨some 3, []⟩) ∧
    parseJsonString (Cursor.fresh ['"', '\\', '/', '"'])
      = .error (.err (.UnexpectedCharacter '/' 2 ['"', '\\', '/', 'b', 'f', 'n', 'r', 't', 'u'])) ∧
    parseJsonString (Cursor.fresh ['"', '\\', 'b', '"']) = .error .panicked ∧
    parseJsonString (Cursor.fresh ['"', '\\', 'f', '"']) = .error .panicked ∧
    parseJsonString (Cursor.fresh ['"', '\\', 'x', '"'])
      = .error (.err (.UnexpectedCharacter 'x' 2 ['"', '\\', '/', 'b', 'f', 'n', 'r', 't', 'u'])) :=
  ⟨rfl, rfl, rfl, rfl, rfl, rfl, rfl, rfl, rfl⟩

/-- C3: a valid surrogate pair `😀` decodes to the single scalar
U+1F600 as claimed, and a missing second escape fails with a `ParseError`;
but a surrogate followed by a second `\u` escape that is not a matching low
surrogate panics (`.unwrap()` on the `Err` of `decode_utf16`) instead of
failing with a `ParseError`. -/
theorem c3_surrogate_pair_eval :
    parseJsonString
        (Cursor.fresh ['"', '\\', 'u', 'D', '8', '3', 'D', '\\', 'u', 'D', 'E', '0', '0', '"'])
      = .ok ([Char.ofNat 0x1F600], ⟨some 13, []⟩) ∧
    parseJsonString
        (Cursor.fresh ['"', '\\', 'u', 'D', '8', '0', '0', '\\', 'u', '0', '0', '4', '1', '"'])
      = .error .panicked ∧
    parseJsonString (Cursor.fresh ['"', '\\', 'u', 'D', '8', '0', '0', '"'])
      = .error (.err (.UnexpectedCharacter '"' 7 ['\\'])) :=
  ⟨rfl, rfl, rfl⟩

/-- C5: `next_non_whitespace_if_eq` consumes leading whitespace on a
non-match and returns the expected character on a match as claimed, but a
non-matching decisive character is consumed and discarded — after probing
`" x"` for `]` the source is empty and a subsequent `next_any` yields
nothing, and `next_if` on a non-match drops the probed character from the
source. -/
theorem c5_conditional_consume_eval :
    Cursor.nextNonWhitespaceIfEq ']' ⟨none, [' ', 'x']⟩ = (none, ⟨none, []⟩) ∧
    (Cursor.nextAny ⟨none, ([] : List Char)⟩).1 = none ∧
    Cursor.nextIf (fun chr => chr = ']') ⟨some 0, ['x', 'y']⟩ = (none, ⟨some 0, ['y']⟩) ∧
    Cursor.nextNonWhitespaceIfEq ']' ⟨none, [' ', ']']⟩ = (some ']', ⟨none, []⟩) :=
  ⟨rfl, rfl, rfl, rfl⟩

/-- C6 (amended): an unescaped character other than `"` and `\` inside a
string literal is rejected with `ControlCharacter` at its index exactly when
Rust's `char::is_control` holds, i.e. when its code point is below 0x20 OR
lies in 0x7F..=0x9F; every other such character is appended as-is. -/
theorem c6_unescaped_char_classification (ch : Char) (h1 : ch ≠ '"') (h2 : ch ≠ '\\') :
    (isControlRust ch = true →
      parseJsonString (Cursor.fresh ['"', ch, '"']) = .error (.err (.ControlCharacter ch 1))) ∧
    (isControlRust ch = false →
      parseJsonString (Cursor.fresh ['"', ch, '"']) = .ok ([ch], ⟨some 2, []⟩)) := by
  have base : parseJsonString (Cursor.fresh ['"', ch, '"'])
      = parseStringLoop (2 + 1) [] ⟨some 0, [ch, '"']⟩ := rfl
  rw [base, parseStringLoop_plain_step 2 [] (some 0) ch ['"'] h1 h2]
  constructor
  · intro h
    rw [if_pos h]
    rfl
  · intro h
    rw [if_neg (by simp [h])]
    rfl

/-- C6 counterexample: the unescaped character U+007F has code point not
below 0x20, so the claim says it is appended as-is, but the parse rejects it
with `ControlCharacter` at index 1 (Rust's `is_control` also covers
0x7F..=0x9F). -/
theorem c6_counterexample :
    parseJsonString (Cursor.fresh ['"', Char.ofNat 0x7F, '"'])
      = .error (.err (.ControlCharacter (Char.ofNat 0x7F) 1)) ∧
    parseJsonString (Cursor.fresh ['"', Char.ofNat 0x7F, '"'])
      ≠ .ok ([Char.ofNat 0x7F], ⟨some 2, []⟩) := by
  constructor
  · rfl
  · intro hc
    rw [show parseJsonString (Cursor.fresh ['"', Char.ofNat 0x7F, '"'])
        = .error (.err (.ControlCharacter (Char.ofNat 0x7F) 1)) from rfl] at hc
    exact Except.noConfusion hc

/-- C6 witness: the classification applied to the concrete characters U+007F
(rejected as a control character) and `x` (appended as-is). -/
theorem c6_witness :
    parseJsonString (Cursor.fresh ['"', Char.ofNat 0x7F, '"'])
      = .error (.err (.ControlCharacter (Char.ofNat 0x7F) 1)) ∧
    parseJsonString (Cursor.fresh ['"', 'x', '"']) = .ok (['x'], ⟨some 2, []⟩) :=
  ⟨(c6_unescaped_char_classification (Char.ofNat 0x7F) (by decide) (by decide)).1 (by decide),
   (c6_unescaped_char_classification 'x' (by decide) (by decide)).2 (by decide)⟩

/-- C7: `{}` parses to the empty object, `[]` to the empty array, and the
same inputs with interior whitespace likewise succeed with empty results. -/
theorem c7_empty_containers :
    parseJsonObject (Cursor.fresh ['{', '}']) = .ok ([], ⟨some 1, []⟩) ∧
    parseJsonObject (Cursor.fresh ['{', ' ', '}']) = .ok ([], ⟨some 2, []⟩) ∧
    parseJsonArray (Cursor.fresh ['[', ']']) = .ok ([], ⟨some 0, []⟩) ∧
    parseJsonArray (Cursor.fresh ['[', ' ', ']']) = .ok ([], ⟨some 0, []⟩) :=
  ⟨rfl, rfl, rfl, rfl⟩

/-- C8: `JsonNumber::parse` is `todo!()` in the source, so the number rule
panics on every input — it neither rejects `01` with `UnexpectedCharacter`
nor accepts `0` or `0.5`; none of the claimed sign/integer/fraction/exponent
processing exists. -/
theorem c8_number_rule_eval :
    parseJsonNumber (Cursor.fresh ['0', '1']) = .error .panicked ∧
    parseJsonNumber (Cursor.fresh ['0']) = .error .panicked ∧
    parseJsonNumber (Cursor.fresh ['0', '.', '5']) = .error .panicked :=
  ⟨rfl, rfl, rfl⟩

/-- C9: `hex_digit_to_byte` maps exactly the characters `0`-`9`, `a`-`f`,
`A`-`F` to 0..15 and nothing else; `parse4hex` combines four decoded digits
most-significant-first into one code unit and advances the index by four;
and a non-hex character in any of the four digit positions fails with
`UnexpectedNonHexCharacter` carrying that character and its index. -/
theorem c9_hex_escape_decoding :
    (∀ chx : Char, chx ∉ "0123456789abcdefABCDEF".toList →
      hexDigitToByte chx = none) ∧
    (hexDigitToByte '0' = some 0 ∧ hexDigitToByte '1' = some 1 ∧ hexDigitToByte '2' = some 2 ∧
      hexDigitToByte '3' = some 3 ∧ hexDigitToByte '4' = some 4 ∧ hexDigitToByte '5' = some 5 ∧
      hexDigitToByte '6' = some 6 ∧ hexDigitToByte '7' = some 7 ∧ hexDigitToByte '8' = some 8 ∧
      hexDigitToByte '9' = some 9 ∧ hexDigitToByte 'a' = some 10 ∧ hexDigitToByte 'A' = some 10 ∧
      hexDigitToByte 'b' = some 11 ∧ hexDigitToByte 'B' = some 11 ∧ hexDigitToByte 'c' = some 12 ∧
      hexDigitToByte 'C' = some 12 ∧ hexDigitToByte 'd' = some 13 ∧ hexDigitToByte 'D' = some 13 ∧
      hexDigitToByte 'e' = some 14 ∧ hexDigitToByte 'E' = some 14 ∧ hexDigitToByte 'f' = some 15 ∧
      hexDigitToByte 'F' = some 15) ∧
    (∀ (k : Nat) (rest : List Char) (d1 d2 d3 d4 : Char) (v1 v2 v3 v4 : Nat),
      hexDigitToByte d1 = some v1 → hexDigitToByte d2 = some v2 →
      hexDigitToByte d3 = some v3 → hexDigitToByte d4 = some v4 →
      parse4hex ⟨some k, d1 :: d2 :: d3 :: d4 :: rest⟩
        = .ok (v1 * 4096 + v2 * 256 + v3 * 16 + v4, ⟨some (k + 4), rest⟩)) ∧
    (∀ (k : Nat) (rest : List Char) (d1 : Char),
      hexDigitToByte d1 = none →
      parse4hex ⟨some k, d1 :: rest⟩ = .error (.err (.UnexpectedNonHexCharacter d1 (k + 1)))) ∧
    (∀ (k : Nat) (rest : List Char) (d1 d2 : Char) (v1 : Nat),
      hexDigitToByte d1 = some v1 → hexDigitToByte d2 = none →
      parse4hex ⟨some k, d1 :: d2 :: rest⟩
        = .error (.err (.UnexpectedNonHexCharacter d2 (k + 2)))) ∧
    (∀ (k : Nat) (rest : List Char) (d1 d2 d3 : Char) (v1 v2 : Nat),
      hexDigitToByte d1 = some v1 → hexDigitToByte d2 = some v2 → hexDigitToByte d3 = none →
      parse4hex ⟨some k, d1 :: d2 :: d3 :: rest⟩
        = .error (.err (.UnexpectedNonHexCharacter d3 (k + 3)))) ∧
    (∀ (k : Nat) (rest : List Char) (d1 d2 d3 d4 : Char) (v1 v2 v3 : Nat),
      hexDigitToByte d1 = some v1 → hexDigitToByte d2 = some v2 → hexDigitToByte d3 = some v3 →
      hexDigitToByte d4 = none →
      parse4hex ⟨some k, d1 :: d2 :: d3 :: d4 :: rest⟩
        = .error (.err (.UnexpectedNonHexCharacter d4 (k + 4)))) := by
  refine ⟨hexTableNone, by decide, ?_, ?_, ?_, ?_, ?_⟩
  · intro k rest d1 d2 d3 d4 v1 v2 v3 v4 h1 h2 h3 h4
    simp [parse4hex, Cursor.nextAny, incIdxOpt, h1, h2, h3, h4]
    omega
  · intro k rest d1 h1
    simp [parse4hex, Cursor.nextAny, incIdxOpt, nonHexAt, h1]
  · intro k rest d1 d2 v1 h1 h2
    simp [parse4hex, Cursor.nextAny, incIdxOpt, nonHexAt, h1, h2]
  · intro k rest d1 d2 d3 v1 v2 h1 h2 h3
    simp [parse4hex, Cursor.nextAny, incIdxOpt, nonHexAt, h1, h2, h3]
  · intro k rest d1 d2 d3 d4 v1 v2 v3 h1 h2 h3 h4
    simp [parse4hex, Cursor.nextAny, incIdxOpt, nonHexAt, h1, h2, h3, h4]

/-- C9 witness: decoding `0Af3` from index 2 yields `0x0Af3` with the index
advanced to 6, a non-hex first digit `g` fails at index 1, and `z` is not in
the table. -/
theorem c9_witness :
    parse4hex ⟨some 2, ['0', 'A', 'f', '3', 'z']⟩
      = .ok (0 * 4096 + 10 * 256 + 15 * 16 + 3, ⟨some 6, ['z']⟩) ∧
    parse4hex ⟨some 0, ['g', '0', '0', '0']⟩
      = .error (.err (.UnexpectedNonHexCharacter 'g' 1)) ∧
    hexDigitToByte 'z' = none :=
  ⟨c9_hex_escape_decoding.2.2.1 2 ['z'] '0' 'A' 'f' '3' 0 10 15 3 rfl rfl rfl rfl,
   c9_hex_escape_decoding.2.2.2.1 0 ['0', '0', '0'] 'g' rfl,
   c9_hex_escape_decoding.1 'z' (by decide)⟩

/-- C10: for every UTF-16 code unit outside the surrogate range,
`decode_utf16` on that single unit yields exactly one item, an `Ok` scalar,
so the two `unwrap` calls of the non-surrogate branch cannot panic; and
every value `parse4hex` can return is below 2^16, so the branch only ever
feeds genuine code units to the decoder. -/
theorem c10_single_unit_decode_total :
    (∀ w : Nat, w < 0x10000 → (w < 0xD800 ∨ 0xDFFF < w) →
      decodeUtf16 [w] = [.ok (Char.ofNat w)] ∧
      unwrapUnwrap (decodeUtf16 [w]) = .ok (Char.ofNat w)) ∧
    (∀ (c c2 : Cursor) (v : Nat), parse4hex c = .ok (v, c2) → v < 0x10000) := by
  constructor
  · intro w h1 h2
    constructor <;> rcases h2 with h | h <;> simp [decodeUtf16, unwrapUnwrap, h]
  · intro c c2 v h
    exact parse4hex_lt c v c2 h

/-- C10 witness: the single-unit decode at the non-surrogate unit 65 and the
parse4hex bound at a concrete successful parse. -/
theorem c10_witness :
    (decodeUtf16 [65] = [.ok (Char.ofNat 65)] ∧
      unwrapUnwrap (decodeUtf16 [65]) = .ok (Char.ofNat 65)) ∧
    (2803 : Nat) < 0x10000 :=
  ⟨c10_single_unit_decode_total.1 65 (by decide) (Or.inl (by decide)),
   c10_single_unit_decode_total.2 ⟨some 2, ['0', 'A', 'f', '3', 'z']⟩ ⟨some 6, ['z']⟩ 2803 rfl⟩

end JsonParser
